import Mathlib

/-!
Verification of the nusm synchronization engine (src/nusm.ts) against its
natural-language specification.  The TypeScript core is shallowly embedded:
JavaScript runtime values are modelled by the inductive `Val` (with an
explicit `undef` constructor, since the engine materially distinguishes
`undefined` from real state), throwing functions by `Except String`,
asynchronous sequencing by explicit ordering of pure state-passing steps,
and JavaScript Map objects by association lists with in-place update
(mirroring Map.set keeping insertion order).
-/







namespace Nusm

/-- JavaScript runtime values as they occur in the engine: JSON-style data
plus `undefined`, which the store container genuinely holds before
hydration applies. -/
inductive Val where
  | undef
  | null
  | bool (b : Bool)
  | num (n : Int)
  | str (s : String)
  | arr (elems : List Val)
  | obj (fields : List (String × Val))
deriving Repr

mutual

/-- Structural equality test on values; models the identity comparison
only where the engine compares primitive snapshots. -/
def Val.beq : Val → Val → Bool
  | .undef, .undef => true
  | .null, .null => true
  | .bool a, .bool b => a == b
  | .num a, .num b => a == b
  | .str a, .str b => a == b
  | .arr a, .arr b => Val.beqList a b
  | .obj a, .obj b => Val.beqFields a b
  | _, _ => false

def Val.beqList : List Val → List Val → Bool
  | [], [] => true
  | x :: xs, y :: ys => Val.beq x y && Val.beqList xs ys
  | _, _ => false

def Val.beqFields : List (String × Val) → List (String × Val) → Bool
  | [], [] => true
  | (k₁, v₁) :: xs, (k₂, v₂) :: ys =>
    k₁ == k₂ && Val.beq v₁ v₂ && Val.beqFields xs ys
  | _, _ => false

end

/-- The JavaScript nullish test (matches the loose equality check
raw == null used by the engine, which is true for null and undefined). -/
def Val.isNullish : Val → Bool
  | .undef => true
  | .null => true
  | _ => false

/-- First binding of a key in an association list (JS Map.get / object
property lookup). -/
def findEntry {α : Type} : List (String × α) → String → Option α
  | [], _ => none
  | (k, v) :: rest, key => if k = key then some v else findEntry rest key

/-- JS Map.set / object property assignment semantics: replace the value
in place if the key exists, otherwise append at the end. -/
def upsert {α : Type} : List (String × α) → String → α → List (String × α)
  | [], k, v => [(k, v)]
  | (k₀, v₀) :: rest, k, v =>
    if k₀ = k then (k₀, v) :: rest
    else (k₀, v₀) :: upsert rest k v

/-- The structural deep merge produced by createDeepmerge with the option
mergeArray := fun _ => fun _target source => source (src/nusm.ts lines
13-15): plain objects merge key-by-key recursively (target key order kept,
source-only keys appended in source order), arrays are replaced wholesale
by the source side, and any other combination is won by the source. -/
def deepMerge : Val → Val → Val
  | .obj tf, .obj [] => .obj tf
  | .obj tf, .obj ((k, sv) :: rest) =>
    let mv := match findEntry tf k with
      | some tv => deepMerge tv sv
      | none => sv
    deepMerge (.obj (upsert tf k mv)) (.obj rest)
  | .arr _, .arr se => .arr se
  | _, s => s
termination_by _t s => sizeOf s
decreasing_by
  all_goals simp_wf
  all_goals simp [sizeOf]
  all_goals omega

/-- Result of a configured validation function: either the plain boolean
form or the structured form.  In the structured form the value field is a
`Val`; an absent or undefined field is `Val.undef` (the engine treats it
through nullish coalescing, so absent, undefined and null behave alike). -/
inductive ValidateResult where
  | plain (b : Bool)
  | structured (ok : Bool) (value : Val)
deriving Repr

/-- Normalized validation outcome (resolveValidateResult's return shape). -/
structure Resolved where
  ok : Bool
  value : Val
deriving Repr

/-- resolveValidateResult (src/nusm.ts lines 52-63): a plain boolean keeps
the persisted value; the structured form keeps its value field unless that
field is nullish, in which case the nullish coalescing operator falls back
to the persisted value. -/
def resolveValidateResult : ValidateResult → Val → Resolved
  | .plain b, persisted => ⟨b, persisted⟩
  | .structured ok value, persisted =>
    ⟨ok, if value.isNullish then persisted else value⟩

/-- The discardPersisted directive: a static flag or a zero-argument
predicate; the predicate is user code and may throw. -/
inductive DiscardSetting where
  | flag (b : Bool)
  | pred (f : Unit → Except String Bool)

/-- hydrate configuration; validators, custom merges and slice reducers are
arbitrary functions that may throw, modelled with Except String. -/
structure HydrateConfig where
  validate : Option (Val → Except String ValidateResult)
  merge : Option (Val → Val → Except String Val)
  discardPersisted : Option DiscardSetting

/-- shouldDiscardPersisted (src/nusm.ts lines 44-50): a function directive
is called — and, being user code, may throw — anything else is coerced to
a boolean (undefined gives false). -/
def shouldDiscardPersisted : Option HydrateConfig → Except String Bool
  | none => .ok false
  | some cfg =>
    match cfg.discardPersisted with
    | none => .ok false
    | some (.flag b) => .ok b
    | some (.pred f) => f ()

/-- A configured slice: selector (pure projection) and reducer (which, as
an arbitrary user function, may throw). -/
structure Slice where
  key : String
  select : Val → Val
  apply : Val → Val → Except String Val

inductive Strategy where
  | entire
  | slices
deriving Repr, DecidableEq

/-- A persistence unit as stored in the persistenceUnits map:
kind together with the slice key for slice units. -/
inductive UnitKey where
  | entire
  | slice (sliceKey : String)
deriving Repr, DecidableEq

/-- The backend adapter surface the synchronization engine consults:
declared name, reads (which may suspend and throw), and the optional key
resolver override. -/
structure Adapter where
  name : String
  getItem : String → Except String (Option Val)
  resolveKey : Option (String → UnitKey → String)

/-- The per-store configuration the engine closes over after
createNusmStore has read its options (strategy defaulted to entire,
slices defaulted to empty). -/
structure EngineConfig where
  initialState : Val
  storeId : String
  adapter : Option Adapter
  strategy : Strategy
  slices : List Slice
  hydrateConfig : Option HydrateConfig

/-- defaultResolveKey (src/nusm.ts lines 17-26). -/
def defaultResolveKey (storeId : String) : UnitKey → String
  | .entire => "nusm:" ++ storeId ++ ":entire"
  | .slice sliceKey => "nusm:" ++ storeId ++ ":slice:" ++ sliceKey

/-- The engine's resolveKey closure (src/nusm.ts lines 107-115): the
adapter's resolver is used exclusively when supplied, else the default
scheme. -/
def engineResolveKey (cfg : EngineConfig) (u : UnitKey) : String :=
  match cfg.adapter with
  | some a =>
    match a.resolveKey with
    | some f => f cfg.storeId u
    | none => defaultResolveKey cfg.storeId u
  | none => defaultResolveKey cfg.storeId u

/-- Whether sub occurs as a prefix of hay. -/
def charsPrefixOf : List Char → List Char → Bool
  | [], _ => true
  | _ :: _, [] => false
  | c :: cs, d :: ds => c == d && charsPrefixOf cs ds

/-- Whether sub occurs contiguously anywhere inside hay
(String.prototype.includes). -/
def charsContain (sub : List Char) : List Char → Bool
  | [] => charsPrefixOf sub []
  | c :: rest => charsPrefixOf sub (c :: rest) || charsContain sub rest

/-- ASCII lowercasing of one character (the behavior of toLowerCase on
the ASCII adapter names the engine deals with). -/
def lowerChar (c : Char) : Char :=
  if 65 ≤ c.toNat ∧ c.toNat ≤ 90 then Char.ofNat (c.toNat + 32) else c

/-- The test adapter?.name.toLowerCase().includes("index")
(src/nusm.ts line 136). -/
def nameSuggestsIndex (name : String) : Bool :=
  charsContain "index".toList (name.toList.map lowerChar)

/-- recentWriteWindowMs (src/nusm.ts lines 136-138): 1000 when the
declared adapter name contains "index" case-insensitively, else 500
(also 500 with no adapter, where the optional chain yields undefined). -/
def recentWriteWindowMs (cfg : EngineConfig) : Nat :=
  match cfg.adapter with
  | some a => if nameSuggestsIndex a.name then 1000 else 500
  | none => 500

/-- The persistenceUnits map built at construction (src/nusm.ts lines
117-133): one entry for the entire unit, or one per configured slice,
inserted with Map.set semantics. -/
def persistenceUnits (cfg : EngineConfig) : List (String × UnitKey) :=
  match cfg.adapter with
  | none => []
  | some _ =>
    match cfg.strategy with
    | .entire => [(engineResolveKey cfg .entire, UnitKey.entire)]
    | .slices =>
      cfg.slices.foldl
        (fun acc s =>
          upsert acc (engineResolveKey cfg (.slice s.key)) (UnitKey.slice s.key))
        []

/-- Per-unit hydration state enum. -/
inductive HydrationState where
  | not_configured
  | pending
  | hydrated
  | discarded
  | error
deriving Repr, DecidableEq

/-- The validation step shared by hydrateEntire and hydrateSlices
(src/nusm.ts lines 283-298 and 346-362): when a validator is configured,
run it and resolve its result; a rejecting result yields none, otherwise
the (possibly substituted) persisted value.  When no validator is
configured the raw value passes through. -/
def runValidate (hc : Option HydrateConfig) (raw : Val) :
    Except String (Option Val) :=
  match hc with
  | some c =>
    match c.validate with
    | some vf => do
      let r := resolveValidateResult (← vf raw) raw
      if r.ok then pure (some r.value) else pure none
    | none => pure (some raw)
  | none => pure (some raw)

/-- The merge used for the entire strategy (src/nusm.ts lines 300-305 and
493-498): the caller-supplied merge of the initial state with the
persisted value when configured, otherwise the structural deep merge. -/
def mergeWithInitial (initial : Val) (hc : Option HydrateConfig)
    (persisted : Val) : Except String Val :=
  match hc with
  | some c =>
    match c.merge with
    | some m => m initial persisted
    | none => .ok (deepMerge initial persisted)
  | none => .ok (deepMerge initial persisted)

/-- Outcome of hydrating one unit: the produced value, its status, and the
errors reported to the error sink. -/
structure UnitOutcome where
  value : Val
  status : HydrationState
  errors : List String
deriving Repr

/-- The try block of hydrateEntire (src/nusm.ts lines 275-308): read the
backend, treat a nullish read as nothing-to-merge, validate, then merge
with the initial state. -/
def hydrateEntireTry (cfg : EngineConfig) (a : Adapter) :
    Except String (Val × HydrationState) := do
  match ← a.getItem (engineResolveKey cfg .entire) with
  | none => pure (cfg.initialState, .hydrated)
  | some raw =>
    if raw.isNullish then
      pure (cfg.initialState, .hydrated)
    else
      match ← runValidate cfg.hydrateConfig raw with
      | none => pure (cfg.initialState, .discarded)
      | some pv => do
        let merged ← mergeWithInitial cfg.initialState cfg.hydrateConfig pv
        pure (merged, .hydrated)

/-- hydrateEntire (src/nusm.ts lines 261-320): the discard directive skips
the backend read entirely; any exception inside the try block is caught,
marks the unit error, reports to the sink and keeps the initial value.
The discard check itself sits before the try block, so a throwing discard
predicate escapes hydrateEntire uncaught (the outer Except). -/
def hydrateEntire (cfg : EngineConfig) (a : Adapter) :
    Except String UnitOutcome :=
  match shouldDiscardPersisted cfg.hydrateConfig with
  | .error e => .error e
  | .ok true => .ok ⟨cfg.initialState, .discarded, []⟩
  | .ok false =>
    match hydrateEntireTry cfg a with
    | .ok (v, st) => .ok ⟨v, st, []⟩
    | .error e => .ok ⟨cfg.initialState, .error, [e]⟩

/-- Accumulator for slice hydration: the running next state, the byKey
hydration statuses, and the errors reported to the sink. -/
structure SlicesAcc where
  state : Val
  statuses : List (String × HydrationState)
  errors : List String

/-- The per-slice try block of hydrateSlices (src/nusm.ts lines 339-365):
read, nullish is nothing-to-fold, validate, then fold the accepted value
into the running state via the slice reducer. -/
def sliceTry (cfg : EngineConfig) (a : Adapter) (s : Val) (sl : Slice) :
    Except String (Val × HydrationState) := do
  match ← a.getItem (engineResolveKey cfg (.slice sl.key)) with
  | none => pure (s, .hydrated)
  | some raw =>
    if raw.isNullish then
      pure (s, .hydrated)
    else
      match ← runValidate cfg.hydrateConfig raw with
      | none => pure (s, .discarded)
      | some pv => do
        let next ← sl.apply s pv
        pure (next, .hydrated)

/-- One slice step of hydrateSlices including its catch (src/nusm.ts lines
337-377): an exception marks the slice error, appends to the sink, and
leaves the running state untouched. -/
def stepSlice (cfg : EngineConfig) (a : Adapter) (acc : SlicesAcc)
    (sl : Slice) : SlicesAcc :=
  match sliceTry cfg a acc.state sl with
  | .ok (v, st) => ⟨v, upsert acc.statuses sl.key st, acc.errors⟩
  | .error e => ⟨acc.state, upsert acc.statuses sl.key .error, acc.errors ++ [e]⟩

/-- The byKey statuses created at construction: every configured unit
starts pending (src/nusm.ts lines 121-133). -/
def initialStatuses (cfg : EngineConfig) : List (String × HydrationState) :=
  match cfg.strategy with
  | .entire => [("entire", .pending)]
  | .slices => cfg.slices.foldl (fun acc s => upsert acc s.key .pending) []

/-- hydrateSlices (src/nusm.ts lines 322-380): the discard directive marks
every slice discarded without reading; otherwise the slices are folded in
configured order.  As in hydrateEntire, the discard check is outside the
per-slice try blocks, so a throwing discard predicate escapes uncaught. -/
def hydrateSlices (cfg : EngineConfig) (a : Adapter) :
    Except String SlicesAcc :=
  match shouldDiscardPersisted cfg.hydrateConfig with
  | .error e => .error e
  | .ok true =>
    .ok ⟨cfg.initialState,
      cfg.slices.foldl (fun acc s => upsert acc s.key .discarded)
        (initialStatuses cfg), []⟩
  | .ok false =>
    .ok (cfg.slices.foldl (stepSlice cfg a)
      ⟨cfg.initialState, initialStatuses cfg, []⟩)

/-- The hydrated units of one run: entire and slice strategies produce the
same accumulator shape; an exception escaping either strategy function
(the throwing discard predicate) propagates. -/
def hydratedAcc (cfg : EngineConfig) (a : Adapter) : Except String SlicesAcc :=
  match cfg.strategy with
  | .entire =>
    match hydrateEntire cfg a with
    | .error e => .error e
    | .ok o =>
      .ok ⟨o.value, upsert (initialStatuses cfg) "entire" o.status, o.errors⟩
  | .slices => hydrateSlices cfg a

/-- finalizeHydration (src/nusm.ts lines 382-391): overall status with
precedence error, then discarded, then hydrated (not_configured without an
adapter). -/
def finalizeHydration (hasAdapter : Bool)
    (byKey : List (String × HydrationState)) : HydrationState :=
  let sts := byKey.map Prod.snd
  if sts.contains .error then .error
  else if sts.contains .discarded then .discarded
  else if hasAdapter then .hydrated else .not_configured

inductive AdapterEventType where
  | set
  | remove
  | clear
deriving Repr, DecidableEq

/-- A backend-originated notification; key is optional and carries no key
for clear. -/
structure AdapterEvent where
  type : AdapterEventType
  key : Option String
deriving Repr, DecidableEq

/-- JavaScript truthiness of the optional event key: an absent key and the
empty string are both falsy. -/
def presentKey : Option String → Option String
  | none => none
  | some s => if s = "" then none else some s

/-- The Recent Write Ledger consultation (src/nusm.ts lines 437-442): the
entry must be truthy (a zero timestamp is falsy in JavaScript) and younger
than the suppression window.  Natural subtraction agrees with the
JavaScript comparison: an entry timestamped in the future also
suppresses. -/
def ledgerSuppresses (rw : List (String × Nat)) (window now : Nat)
    (key : String) : Bool :=
  match findEntry rw key with
  | some t => t != 0 && decide (now - t < window)
  | none => false

/-- The result of handleAdapterEvent (src/nusm.ts lines 434-507) as a pure
transition: ok none means the handler returned without applying anything,
ok (some v) means applyExternalState was invoked with v, and error means an
exception (a throwing slice reducer, custom merge, or backend read)
escaped the handler.  applyExternalState itself (the store assignment
under the suppressPersist flag) is modelled separately. -/
def handleAdapterEvent (cfg : EngineConfig) (rw : List (String × Nat))
    (now : Nat) (state : Val) (event : AdapterEvent) :
    Except String (Option Val) :=
  match cfg.adapter with
  | none => .ok none
  | some a =>
    if event.type != .clear &&
        (match presentKey event.key with
         | some k => ledgerSuppresses rw (recentWriteWindowMs cfg) now k
         | none => false) then
      .ok none
    else
      match event.type with
      | .clear =>
        match cfg.strategy with
        | .entire => .ok (some cfg.initialState)
        | .slices =>
          match cfg.slices.foldlM
              (fun acc sl => sl.apply acc (sl.select cfg.initialState))
              cfg.initialState with
          | .ok s => .ok (some s)
          | .error e => .error e
      | _ =>
        match presentKey event.key with
        | none => .ok none
        | some k =>
          match findEntry (persistenceUnits cfg) k with
          | none => .ok none
          | some u =>
            match event.type with
            | .remove =>
              match u with
              | .entire => .ok (some cfg.initialState)
              | .slice sk =>
                match cfg.slices.find? (fun c => c.key == sk) with
                | none => .ok none
                | some sl =>
                  match sl.apply state (sl.select cfg.initialState) with
                  | .ok s => .ok (some s)
                  | .error e => .error e
            | _ =>
              match u with
              | .entire =>
                match a.getItem k with
                | .error e => .error e
                | .ok rawOpt =>
                  match rawOpt with
                  | none => .ok none
                  | some raw =>
                    if raw.isNullish then .ok none
                    else
                      match mergeWithInitial cfg.initialState
                          cfg.hydrateConfig raw with
                      | .ok m => .ok (some m)
                      | .error e => .error e
              | .slice sk =>
                match cfg.slices.find? (fun c => c.key == sk) with
                | none => .ok none
                | some sl =>
                  match a.getItem k with
                  | .error e => .error e
                  | .ok rawOpt =>
                    match rawOpt with
                    | none => .ok none
                    | some raw =>
                      if raw.isNullish then .ok none
                      else
                        match sl.apply state raw with
                        | .ok s => .ok (some s)
                        | .error e => .error e

/-- The Persistence Scheduler's observable state: the self-originated
provenance flag, the Pending Write Queue (coalescing by key with Map.set
semantics) and a count of scheduleFlush triggers. -/
structure Sched where
  suppressPersist : Bool
  queued : List (String × Val)
  flushSignals : Nat
deriving Repr

/-- enqueuePersist (src/nusm.ts lines 213-228): write or overwrite the
queue entry for the key with the latest payload and trigger a flush. -/
def enqueuePersist (key : String) (payload : Val) (s : Sched) : Sched :=
  { s with
    queued := upsert s.queued key payload
    flushSignals := s.flushSignals + 1 }

/-- The store-change subscriber installed by subscribeToStore (src/nusm.ts
lines 230-253): nothing happens without an adapter or while the
suppressPersist flag is up; the entire strategy enqueues the whole current
state; the slice strategy enqueues exactly the slices whose projected
value changed (compared by identity, modelled as structural equality of
the projected snapshots). -/
def storeSubscriber (cfg : EngineConfig) (prev cur : Val) (s : Sched) :
    Sched :=
  match cfg.adapter with
  | none => s
  | some _ =>
    if s.suppressPersist then s
    else
      match cfg.strategy with
      | .entire => enqueuePersist (engineResolveKey cfg .entire) cur s
      | .slices =>
        cfg.slices.foldl
          (fun acc sl =>
            if Val.beq (sl.select prev) (sl.select cur) then acc
            else
              enqueuePersist (engineResolveKey cfg (.slice sl.key))
                (sl.select cur) acc)
          s

/-- A store container together with its scheduler state. -/
structure Container where
  state : Val
  sched : Sched
deriving Repr

/-- store.setState as the engine observes it: the assignment happens, then
the subscriber runs with the previous and current values. -/
def setStateC (cfg : EngineConfig) (next : Val) (c : Container) : Container :=
  ⟨next, storeSubscriber cfg c.state next c.sched⟩

/-- applyState (src/nusm.ts lines 255-259): raise the suppressPersist
flag, assign, lower the flag; no suspension point in between. -/
def applyState (cfg : EngineConfig) (next : Val) (c : Container) : Container :=
  let c₁ : Container := ⟨c.state, { c.sched with suppressPersist := true }⟩
  let c₂ := setStateC cfg next c₁
  ⟨c₂.state, { c₂.sched with suppressPersist := false }⟩

/-- The initial container contents chosen by createNusmStore (src/nusm.ts
lines 88-90): undefined when an adapter is configured, the initial state
otherwise. -/
def initialContainerState (cfg : EngineConfig) : Val :=
  match cfg.adapter with
  | some _ => Val.undef
  | none => cfg.initialState

/-- The adapter subscription listener (src/nusm.ts lines 509-518): before
readiness the event is appended to the pending buffer and nothing else
happens; after readiness the event is handed to handleAdapterEvent (the
returned flag records which branch ran). -/
def onAdapterEvent (isReady : Bool) (buffer : List AdapterEvent)
    (event : AdapterEvent) : List AdapterEvent × Bool :=
  if isReady then (buffer, true) else (buffer ++ [event], false)

/-- Outcome of the hydrate procedure (src/nusm.ts lines 393-432).  The
container assignment is modelled by applyBehavior: store.setState assigns
the new state and then notifies subscribers, so a throwing subscriber
(some e) leaves the assignment in place while the exception reaches
hydrate's catch. -/
structure HydrateOutcome where
  containerState : Val
  isReady : Bool
  ready : Except String Unit
  overall : HydrationState
  byKey : List (String × HydrationState)
  errors : List String

/-- hydrate (src/nusm.ts lines 393-432): without an adapter readiness
resolves immediately; with one, the strategy's hydration runs (catching
per-unit errors internally), the result is applied, and readiness
resolves.  Two exceptions reach hydrate's catch — a throwing discard
predicate escaping the strategy function, or the container application
itself throwing — and either one reports the error to the sink, sets the
overall status to error, and rejects readiness.  A discard-predicate
throw happens before any status write or assignment, so the byKey
statuses are still all pending and the container still holds undefined;
an apply throw happens after store.setState has assigned and while
notifying subscribers, so the assignment stays in place. -/
def runHydrate (cfg : EngineConfig) (applyBehavior : Val → Option String) :
    HydrateOutcome :=
  match cfg.adapter with
  | none =>
    ⟨cfg.initialState, true, .ok (), .not_configured, [], []⟩
  | some a =>
    match hydratedAcc cfg a with
    | .error e =>
      ⟨Val.undef, false, .error e, .error, initialStatuses cfg, [e]⟩
    | .ok u =>
      match applyBehavior u.state with
      | none =>
        ⟨u.state, true, .ok (), finalizeHydration true u.statuses,
          u.statuses, u.errors⟩
      | some e =>
        ⟨u.state, false, .error e, .error, u.statuses, u.errors ++ [e]⟩

/-- The replay loop in the hydrate().then(...) continuation (src/nusm.ts
lines 569-575): buffered events are drained in arrival order, each awaited
to completion; a rejection (from the handler or from the store assignment)
stops the loop with the remaining events dropped (the buffer was already
spliced empty).  Returns the final container value and the list of events
the loop processed. -/
def replayAll (cfg : EngineConfig) (applyBehavior : Val → Option String)
    (rw : List (String × Nat)) (now : Nat) :
    Val → List AdapterEvent → Val × List AdapterEvent
  | st, [] => (st, [])
  | st, e :: rest =>
    match handleAdapterEvent cfg rw now st e with
    | .error _ => (st, [e])
    | .ok none =>
      let (s, ps) := replayAll cfg applyBehavior rw now st rest
      (s, e :: ps)
    | .ok (some v) =>
      match applyBehavior v with
      | none =>
        let (s, ps) := replayAll cfg applyBehavior rw now v rest
        (s, e :: ps)
      | some _ => (v, [e])

/-- Observable outcome of running hydration followed by the buffered-event
replay. -/
structure Lifecycle where
  containerState : Val
  isReady : Bool
  ready : Except String Unit
  replayed : List AdapterEvent
  buffer : List AdapterEvent
  errors : List String

/-- The construction-time lifecycle (src/nusm.ts lines 569-575): hydrate
runs, and because its internal catch swallows every error after rejecting
the readiness promise, the hydrate() promise itself always resolves, so
the replay continuation runs whether readiness succeeded or failed.
splice(0) empties the buffer before the loop. -/
def runLifecycle (cfg : EngineConfig) (applyBehavior : Val → Option String)
    (rw : List (String × Nat)) (now : Nat)
    (buffered : List AdapterEvent) : Lifecycle :=
  let h := runHydrate cfg applyBehavior
  let (st, ps) := replayAll cfg applyBehavior rw now h.containerState buffered
  ⟨st, h.isReady, h.ready, ps, [], h.errors⟩

def c2Init : Val :=
  .obj [("a", .num 1), ("arr", .arr [.num 1, .num 2]),
        ("b", .obj [("c", .num 2), ("d", .num 3)])]

def c2Persisted : Val :=
  .obj [("arr", .arr [.num 9]), ("b", .obj [("c", .num 20)])]

def c2Merged : Val :=
  .obj [("a", .num 1), ("arr", .arr [.num 9]),
        ("b", .obj [("c", .num 20), ("d", .num 3)])]

def c2Adapter : Adapter := ⟨"memory", fun _ => .ok (some c2Persisted), none⟩

def c2Cfg : EngineConfig := ⟨c2Init, "s", some c2Adapter, .entire, [], none⟩

def c7RejAdapter : Adapter := ⟨"memory", fun _ => .ok (some (.num 9)), none⟩

def c7RejCfg : EngineConfig :=
  ⟨.num 1, "s", some c7RejAdapter, .entire, [],
    some ⟨some (fun _ => .ok (.structured false .undef)), none, none⟩⟩

def c7SubAdapter : Adapter := ⟨"memory", fun _ => .ok (some (.num 9)), none⟩

def c7SubCfg : EngineConfig :=
  ⟨.num 1, "s", some c7SubAdapter, .entire, [],
    some ⟨some (fun _ => .ok (.structured true (.num 42))),
      some (fun _ p => .ok p), none⟩⟩

/-- The clear reset for the slice strategy as the specification words it:
each slice's projection of the initial state applied onto the then-current
state, slice by slice, in configured order (spec-following definition for
comparison with the code's behavior). -/
def specClearSliceReset (cfg : EngineConfig) (current : Val) :
    Except String Val :=
  cfg.slices.foldlM
    (fun acc sl => sl.apply acc (sl.select cfg.initialState)) current

def c1Slice : Slice :=
  ⟨"a",
    fun s => match s with
      | .obj fs => (findEntry fs "a").getD .undef
      | _ => .undef,
    fun s v => match s with
      | .obj fs => .ok (.obj (upsert fs "a" v))
      | _ => .ok s⟩

def c1Cfg : EngineConfig :=
  ⟨.obj [("a", .num 0), ("x", .num 0)], "s",
    some ⟨"memory", fun _ => .ok none, none⟩, .slices, [c1Slice], none⟩

def c1Current : Val := .obj [("a", .num 5), ("x", .num 7)]

def c4IdxCfg : EngineConfig :=
  ⟨.num 0, "s", some ⟨"indexedDB", fun _ => .ok none, none⟩, .entire, [], none⟩

def c4MemCfg : EngineConfig :=
  ⟨.num 0, "s", some ⟨"memory", fun _ => .ok none, none⟩, .entire, [], none⟩

def c3EntireCfg : EngineConfig :=
  ⟨.num 1, "s",
    some ⟨"memory",
      fun key => if key = "nusm:s:entire" then .ok (some (.num 7)) else .ok none,
      none⟩,
    .entire, [], none⟩

def c3NullCfg : EngineConfig :=
  ⟨.num 1, "s", some ⟨"memory", fun _ => .ok none, none⟩, .entire, [], none⟩

def c3Slice : Slice :=
  ⟨"a",
    fun s => match s with
      | .obj fs => (findEntry fs "a").getD .undef
      | _ => .undef,
    fun s v => match s with
      | .obj fs => .ok (.obj (upsert fs "a" v))
      | _ => .ok s⟩

def c3SliceCfg : EngineConfig :=
  ⟨.obj [("a", .num 0), ("x", .num 0)], "s",
    some ⟨"memory", fun _ => .ok (some (.num 9)), none⟩,
    .slices, [c3Slice], none⟩

def c5Adapter : Adapter :=
  ⟨"memory",
    fun key => if key = "nusm:s:slice:b" then .error "boom" else .ok none,
    none⟩

def c5SliceA : Slice := ⟨"a", fun s => s, fun s _ => .ok s⟩

def c5SliceB : Slice := ⟨"b", fun s => s, fun s _ => .ok s⟩

def c5SliceC : Slice := ⟨"c", fun s => s, fun s _ => .ok s⟩

def c5Cfg : EngineConfig :=
  ⟨.num 1, "s", some c5Adapter, .slices, [c5SliceA, c5SliceB, c5SliceC], none⟩

def c5EAdapter : Adapter := ⟨"memory", fun _ => .error "boom", none⟩

def c5ECfg : EngineConfig := ⟨.num 1, "s", some c5EAdapter, .entire, [], none⟩

def c6Cfg : EngineConfig :=
  ⟨.num 1, "s", some ⟨"memory", fun _ => .ok none, none⟩, .entire, [], none⟩

/-- A store whose discardPersisted predicate throws when hydration
evaluates it. -/
def c6PredCfg : EngineConfig :=
  ⟨.num 1, "s", some ⟨"memory", fun _ => .ok none, none⟩, .entire, [],
    some ⟨none, none, some (.pred (fun _ => .error "discard-boom"))⟩⟩

def c8Cfg : EngineConfig :=
  ⟨.num 0, "s", some ⟨"memory", fun _ => .ok none, none⟩, .entire, [], none⟩

def c8Container : Container := ⟨.num 0, ⟨false, [], 0⟩⟩

def c9Cfg : EngineConfig :=
  ⟨.num 1, "s", some ⟨"memory", fun _ => .ok none, none⟩, .entire, [], none⟩

def c9NoCfg : EngineConfig := ⟨.num 1, "s", none, .entire, [], none⟩

def c10Adapter : Adapter := ⟨"memory", fun _ => .ok (some (.str "w")), none⟩

def c10Cfg : EngineConfig :=
  ⟨.num 1, "s", some c10Adapter, .entire, [],
    some ⟨none, some (fun _ p => .ok p), none⟩⟩

/-- A container assignment behavior that throws exactly on the hydrated
value the c10 backend produces and succeeds on everything else. -/
def c10Apply : Val → Option String :=
  fun v => match v with
    | .str _ => some "boom"
    | _ => none

/-- When no caller-supplied merge is configured, mergeWithInitial is the
structural deep merge. -/
theorem mergeWithInitial_eq_deepMerge (initial pv : Val)
    (hc : Option HydrateConfig) (hm : ∀ c, hc = some c → c.merge = none) :
    mergeWithInitial initial hc pv = .ok (deepMerge initial pv) := by
  cases hc with
  | none => rfl
  | some c => simp [mergeWithInitial, hm c rfl]

/-- C2: for an entire-strategy hydration with no caller-supplied merge,
where the backend read yields a non-nullish value that validation accepts
as pv, the hydrated state is deepMerge of the initial state with pv;
arrays are replaced wholesale by the source side, and the specification's
concrete example merges as stated. -/
theorem C2_entire_hydration_is_deepMerge
    (cfg : EngineConfig) (a : Adapter) (raw pv : Val)
    (hdisc : shouldDiscardPersisted cfg.hydrateConfig = .ok false)
    (hget : a.getItem (engineResolveKey cfg .entire) = .ok (some raw))
    (hnn : raw.isNullish = false)
    (hval : runValidate cfg.hydrateConfig raw = .ok (some pv))
    (hm : ∀ c, cfg.hydrateConfig = some c → c.merge = none) :
    hydrateEntire cfg a = .ok ⟨deepMerge cfg.initialState pv, .hydrated, []⟩ ∧
    (∀ ta se, deepMerge (.arr ta) (.arr se) = .arr se) ∧
    deepMerge
      (.obj [("a", .num 1), ("arr", .arr [.num 1, .num 2]),
             ("b", .obj [("c", .num 2), ("d", .num 3)])])
      (.obj [("arr", .arr [.num 9]), ("b", .obj [("c", .num 20)])]) =
      .obj [("a", .num 1), ("arr", .arr [.num 9]),
            ("b", .obj [("c", .num 20), ("d", .num 3)])] := by
  refine ⟨?_, ?_, ?_⟩
  · have hmm := mergeWithInitial_eq_deepMerge cfg.initialState pv
      cfg.hydrateConfig hm
    simp [hydrateEntire, hdisc, hydrateEntireTry, hget, hnn, hval, hmm,
      bind, Except.bind, pure, Except.pure, Functor.map, Except.map]
  · intro ta se
    simp [deepMerge]
  · simp [deepMerge, findEntry, upsert]

/-- C2 witness: the theorem applied to a concrete store whose backend
holds the specification's example persisted value. -/
theorem C2_entire_hydration_is_deepMerge_witness :
    hydrateEntire c2Cfg c2Adapter = .ok ⟨c2Merged, .hydrated, []⟩ := by
  have h := C2_entire_hydration_is_deepMerge c2Cfg c2Adapter c2Persisted
    c2Persisted rfl rfl rfl rfl (fun c hc => nomatch hc)
  rw [h.1]
  rw [show deepMerge c2Cfg.initialState c2Persisted = c2Merged from h.2.2]

/-- With a configured validator that returns r on raw, runValidate yields
the resolved value when accepted and none when rejected. -/
theorem runValidate_configured (c : HydrateConfig)
    (vf : Val → Except String ValidateResult) (raw : Val) (r : ValidateResult)
    (hv : c.validate = some vf) (hr : vf raw = .ok r) :
    runValidate (some c) raw =
      .ok (if (resolveValidateResult r raw).ok then
            some (resolveValidateResult r raw).value
          else none) := by
  simp only [runValidate, hv, hr, bind, Except.bind, pure, Except.pure]
  split <;> simp_all

/-- C7 counterexample: the structured result with ok true and a present
but null value field does not substitute null; the nullish coalescing in
resolveValidateResult falls back to the raw persisted value instead, so
the downstream value is the persisted 5, not the null the claim would
require. -/
theorem C7_counterexample :
    resolveValidateResult (.structured true Val.null) (.num 5) =
      ⟨true, .num 5⟩ ∧
    (⟨true, Val.num 5⟩ : Resolved) ≠ ⟨true, Val.null⟩ := by
  refine ⟨rfl, fun h => ?_⟩
  injection h with h₁ h₂
  exact Val.noConfusion h₂

/-- C7 (amended): a plain boolean accepts or rejects the raw value as-is;
a structured result with a non-nullish value field substitutes it, while a
nullish value field (absent, undefined or null) falls back to the raw
persisted value; during entire hydration a rejecting validation marks the
unit discarded and keeps the initial value, and an accepting one feeds the
resolved value into the merge. -/
theorem C7_validation_behavior :
    (∀ (b : Bool) (p : Val), resolveValidateResult (.plain b) p = ⟨b, p⟩) ∧
    (∀ (ok : Bool) (v p : Val), v.isNullish = false →
      resolveValidateResult (.structured ok v) p = ⟨ok, v⟩) ∧
    (∀ (ok : Bool) (v p : Val), v.isNullish = true →
      resolveValidateResult (.structured ok v) p = ⟨ok, p⟩) ∧
    (∀ (cfg : EngineConfig) (a : Adapter) (c : HydrateConfig)
        (vf : Val → Except String ValidateResult) (raw : Val)
        (r : ValidateResult),
      shouldDiscardPersisted cfg.hydrateConfig = .ok false →
      cfg.hydrateConfig = some c → c.validate = some vf →
      a.getItem (engineResolveKey cfg .entire) = .ok (some raw) →
      raw.isNullish = false → vf raw = .ok r →
      ((resolveValidateResult r raw).ok = false →
        hydrateEntire cfg a = .ok ⟨cfg.initialState, .discarded, []⟩) ∧
      ((resolveValidateResult r raw).ok = true →
        hydrateEntire cfg a =
          match mergeWithInitial cfg.initialState cfg.hydrateConfig
              (resolveValidateResult r raw).value with
          | .ok m => .ok ⟨m, .hydrated, []⟩
          | .error e => .ok ⟨cfg.initialState, .error, [e]⟩)) := by
  refine ⟨fun b p => rfl, fun ok v p hv => ?_, fun ok v p hv => ?_,
    fun cfg a c vf raw r hdisc hcfg hvf hget hnn hr => ⟨fun hok => ?_, fun hok => ?_⟩⟩
  · simp [resolveValidateResult, hv]
  · simp [resolveValidateResult, hv]
  · have hrv := runValidate_configured c vf raw r hvf hr
    rw [hcfg] at hdisc
    simp [hydrateEntire, hdisc, hydrateEntireTry, hget, hnn, hcfg, hrv, hok,
      bind, Except.bind, pure, Except.pure]
  · have hrv := runValidate_configured c vf raw r hvf hr
    rw [hcfg] at hdisc
    simp only [hydrateEntire, hcfg, hdisc,
      hydrateEntireTry, hget, hnn, hrv, hok,
      bind, Except.bind, pure, Except.pure, if_true]
    cases hmw : mergeWithInitial cfg.initialState (some c)
        (resolveValidateResult r raw).value with
    | ok m => simp [hmw, Functor.map, Except.map, hcfg]
    | error e => simp [hmw, Functor.map, Except.map, hcfg]

/-- C7 witness: concrete rejection keeps the initial value with status
discarded; concrete substitution feeds 42 into the merge. -/
theorem C7_validation_behavior_witness :
    resolveValidateResult (.plain true) (.num 5) = ⟨true, .num 5⟩ ∧
    resolveValidateResult (.structured true (.num 7)) (.num 5) =
      ⟨true, .num 7⟩ ∧
    hydrateEntire c7RejCfg c7RejAdapter = .ok ⟨.num 1, .discarded, []⟩ ∧
    hydrateEntire c7SubCfg c7SubAdapter = .ok ⟨.num 42, .hydrated, []⟩ := by
  refine ⟨C7_validation_behavior.1 true (.num 5),
    C7_validation_behavior.2.1 true (.num 7) (.num 5) rfl, ?_, ?_⟩
  · exact (C7_validation_behavior.2.2.2 c7RejCfg c7RejAdapter _ _ (.num 9)
      (.structured false .undef) rfl rfl rfl rfl rfl rfl).1 rfl
  · have h := (C7_validation_behavior.2.2.2 c7SubCfg c7SubAdapter _ _ (.num 9)
      (.structured true (.num 42)) rfl rfl rfl rfl rfl rfl).2 rfl
    exact h

/-- C1 counterexample: with one slice covering only field a, initial state
with a and x both 0, and current state with a 5 and x 7, the code's clear
handler rebuilds from the initial state and yields x 0, while the claim
(slice projections of the initial state applied onto the then-current
state, uncovered parts untouched) requires x 7. -/
theorem C1_counterexample :
    handleAdapterEvent c1Cfg [] 0 c1Current ⟨.clear, none⟩ =
      .ok (some (.obj [("a", .num 0), ("x", .num 0)])) ∧
    specClearSliceReset c1Cfg c1Current =
      .ok (.obj [("a", .num 0), ("x", .num 7)]) ∧
    (Except.ok (some (Val.obj [("a", .num 0), ("x", .num 0)])) :
        Except String (Option Val)) ≠
      .ok (some (.obj [("a", .num 0), ("x", .num 7)])) := by
  refine ⟨rfl, rfl, fun h => ?_⟩
  simp at h

/-- C1 (amended): a clear adapter event never re-reads the backend and
never consults the ledger or the current state for the entire strategy,
where the whole state is replaced by the original initial state; for the
slice strategy the state is rebuilt starting from the initial state by
folding each slice's reducer over its projection of the initial state in
configured order — the then-current state is discarded entirely, so parts
not covered by any slice also revert to their initial values.  Both
right-hand sides mention neither the backend read function nor the current
state, which is the no-re-read guarantee. -/
theorem C1_clear_resets_from_initial
    (cfg : EngineConfig) (a : Adapter) (rw : List (String × Nat)) (now : Nat)
    (st : Val) (k : Option String)
    (ha : cfg.adapter = some a) :
    (cfg.strategy = .entire →
      handleAdapterEvent cfg rw now st ⟨.clear, k⟩ =
        .ok (some cfg.initialState)) ∧
    (cfg.strategy = .slices →
      handleAdapterEvent cfg rw now st ⟨.clear, k⟩ =
        match cfg.slices.foldlM
            (fun acc sl => sl.apply acc (sl.select cfg.initialState))
            cfg.initialState with
        | .ok s => .ok (some s)
        | .error e => .error e) := by
  constructor
  · intro hs
    simp [handleAdapterEvent, ha, hs]
  · intro hs
    simp [handleAdapterEvent, ha, hs]

/-- C1 witness: the amended theorem applied to the concrete slice store
above and to a concrete entire-strategy store. -/
theorem C1_clear_resets_from_initial_witness :
    handleAdapterEvent c1Cfg [("k", 1)] 2 c1Current ⟨.clear, none⟩ =
      .ok (some (.obj [("a", .num 0), ("x", .num 0)])) ∧
    handleAdapterEvent
        ⟨.num 1, "s", some ⟨"memory", fun _ => .ok (some (.num 9)), none⟩,
          .entire, [], none⟩
        [] 0 (.num 3) ⟨.clear, none⟩ =
      .ok (some (.num 1)) := by
  constructor
  · have h := (C1_clear_resets_from_initial c1Cfg
      ⟨"memory", fun _ => .ok none, none⟩ [("k", 1)] 2 c1Current none rfl).2 rfl
    rw [h]
    rfl
  · exact (C1_clear_resets_from_initial _
      ⟨"memory", fun _ => .ok (some (.num 9)), none⟩ [] 0 (.num 3) none
      rfl).1 rfl

/-- C4: non-clear events whose present key has a truthy ledger entry
younger than the suppression window are ignored entirely (the handler
returns without reading or applying anything); once the window has
elapsed the event is handled exactly as it would be with no ledger entry;
the window is 500 ms by default and 1000 ms when the adapter's declared
name contains "index" case-insensitively. -/
theorem C4_recent_write_suppression :
    (∀ (cfg : EngineConfig) (a : Adapter), cfg.adapter = some a →
      nameSuggestsIndex a.name = true → recentWriteWindowMs cfg = 1000) ∧
    (∀ (cfg : EngineConfig) (a : Adapter), cfg.adapter = some a →
      nameSuggestsIndex a.name = false → recentWriteWindowMs cfg = 500) ∧
    (∀ (cfg : EngineConfig) (a : Adapter) (rw : List (String × Nat))
        (now t : Nat) (st : Val) (e : AdapterEvent) (k : String),
      cfg.adapter = some a → e.type ≠ .clear → presentKey e.key = some k →
      findEntry rw k = some t → t ≠ 0 →
      now - t < recentWriteWindowMs cfg →
      handleAdapterEvent cfg rw now st e = .ok none) ∧
    (∀ (cfg : EngineConfig) (rw : List (String × Nat))
        (now t : Nat) (st : Val) (e : AdapterEvent) (k : String),
      presentKey e.key = some k → findEntry rw k = some t →
      recentWriteWindowMs cfg ≤ now - t →
      handleAdapterEvent cfg rw now st e = handleAdapterEvent cfg [] now st e) := by
  refine ⟨?_, ?_, ?_, ?_⟩
  · intro cfg a ha hn
    simp [recentWriteWindowMs, ha, hn]
  · intro cfg a ha hn
    simp [recentWriteWindowMs, ha, hn]
  · intro cfg a rw now t st e k ha he hk ht ht0 hlt
    have hbne : (e.type != AdapterEventType.clear) = true := by
      simp [bne_iff_ne, he]
    simp [handleAdapterEvent, ha, hbne, hk, ledgerSuppresses, ht, ht0, hlt]
  · intro cfg rw now t st e k hk ht hle
    have hnl : ¬ (now - t < recentWriteWindowMs cfg) := not_lt.mpr hle
    cases hca : cfg.adapter with
    | none => simp [handleAdapterEvent, hca]
    | some a =>
      simp [handleAdapterEvent, hca, hk, ledgerSuppresses, ht, hnl, findEntry]

/-- C4 witness: the indexed-database name selects the 1000 ms window, the
default is 500 ms, a concrete set event 100 ms after a recorded write is
suppressed, and the same event 600 ms after the write is handled exactly
like with an empty ledger. -/
theorem C4_recent_write_suppression_witness :
    recentWriteWindowMs c4IdxCfg = 1000 ∧
    recentWriteWindowMs c4MemCfg = 500 ∧
    handleAdapterEvent c4MemCfg [("nusm:s:entire", 100)] 200 (.num 0)
      ⟨.set, some "nusm:s:entire"⟩ = .ok none ∧
    handleAdapterEvent c4MemCfg [("nusm:s:entire", 100)] 700 (.num 0)
      ⟨.set, some "nusm:s:entire"⟩ =
      handleAdapterEvent c4MemCfg [] 700 (.num 0)
        ⟨.set, some "nusm:s:entire"⟩ := by
  refine ⟨?_, ?_, ?_, ?_⟩
  · exact C4_recent_write_suppression.1 c4IdxCfg _ rfl (by decide)
  · exact C4_recent_write_suppression.2.1 c4MemCfg _ rfl (by decide)
  · exact C4_recent_write_suppression.2.2.1 c4MemCfg _ _ 200 100 (.num 0) _
      "nusm:s:entire" rfl (by decide) rfl rfl (by decide) (by decide)
  · exact C4_recent_write_suppression.2.2.2 c4MemCfg _ 700 100 (.num 0) _
      "nusm:s:entire" rfl rfl (by decide)

/-- C3: an unsuppressed set event on the entire unit's key re-reads the
backend: a nullish read leaves the state untouched, and otherwise the new
state is the re-read value merged with the initial state by the same
mergeWithInitial used by hydration — the right-hand side never mentions
the current state, and the handler result is literally independent of it;
a set event on a slice unit's key instead folds the re-read value onto the
current live state through the slice's reducer. -/
theorem C3_set_event_reconciliation
    (cfg : EngineConfig) (a : Adapter) (rw : List (String × Nat)) (now : Nat)
    (st : Val) (k : String)
    (hk0 : k ≠ "") (ha : cfg.adapter = some a)
    (hsup : ledgerSuppresses rw (recentWriteWindowMs cfg) now k = false) :
    (findEntry (persistenceUnits cfg) k = some .entire →
      (a.getItem k = .ok none →
        handleAdapterEvent cfg rw now st ⟨.set, some k⟩ = .ok none) ∧
      (∀ raw : Val, a.getItem k = .ok (some raw) →
        (raw.isNullish = true →
          handleAdapterEvent cfg rw now st ⟨.set, some k⟩ = .ok none) ∧
        (raw.isNullish = false →
          handleAdapterEvent cfg rw now st ⟨.set, some k⟩ =
            match mergeWithInitial cfg.initialState cfg.hydrateConfig raw with
            | .ok m => .ok (some m)
            | .error e => .error e)) ∧
      (∀ st' : Val,
        handleAdapterEvent cfg rw now st ⟨.set, some k⟩ =
          handleAdapterEvent cfg rw now st' ⟨.set, some k⟩)) ∧
    (∀ (sk : String) (sl : Slice) (raw : Val),
      findEntry (persistenceUnits cfg) k = some (.slice sk) →
      cfg.slices.find? (fun c => c.key == sk) = some sl →
      a.getItem k = .ok (some raw) → raw.isNullish = false →
      handleAdapterEvent cfg rw now st ⟨.set, some k⟩ =
        match sl.apply st raw with
        | .ok s => .ok (some s)
        | .error e => .error e) := by
  constructor
  · intro hu
    refine ⟨fun hget => ?_, fun raw hget => ⟨fun hnn => ?_, fun hnn => ?_⟩,
      fun st' => ?_⟩
    · simp [handleAdapterEvent, ha, presentKey, hk0, hsup, hu, hget]
    · simp [handleAdapterEvent, ha, presentKey, hk0, hsup, hu, hget, hnn]
    · simp [handleAdapterEvent, ha, presentKey, hk0, hsup, hu, hget, hnn]
    · simp [handleAdapterEvent, ha, presentKey, hk0, hsup, hu]
  · intro sk sl raw hu hsl hget hnn
    simp [handleAdapterEvent, ha, presentKey, hk0, hsup, hu, hsl, hget, hnn]

/-- C3 witness: a concrete entire-strategy set event merges the re-read 7
with the initial 1 (independently of the live state 3 or 4), a concrete
null read is a no-op, and a concrete slice set event folds the re-read 9
onto the current state. -/
theorem C3_set_event_reconciliation_witness :
    handleAdapterEvent c3EntireCfg [] 0 (.num 3) ⟨.set, some "nusm:s:entire"⟩ =
      .ok (some (.num 7)) ∧
    handleAdapterEvent c3EntireCfg [] 0 (.num 3) ⟨.set, some "nusm:s:entire"⟩ =
      handleAdapterEvent c3EntireCfg [] 0 (.num 4)
        ⟨.set, some "nusm:s:entire"⟩ ∧
    handleAdapterEvent c3NullCfg [] 0 (.num 3) ⟨.set, some "nusm:s:entire"⟩ =
      .ok none ∧
    handleAdapterEvent c3SliceCfg [] 0 (.obj [("a", .num 5), ("x", .num 7)])
      ⟨.set, some "nusm:s:slice:a"⟩ =
      .ok (some (.obj [("a", .num 9), ("x", .num 7)])) := by
  refine ⟨?_, ?_, ?_, ?_⟩
  · have h := (((C3_set_event_reconciliation c3EntireCfg _ [] 0 (.num 3)
      "nusm:s:entire" (by decide) rfl rfl).1 rfl).2.1 (.num 7) rfl).2 rfl
    rw [h]
    simp [c3EntireCfg, mergeWithInitial, deepMerge]
  · exact ((C3_set_event_reconciliation c3EntireCfg _ [] 0 (.num 3)
      "nusm:s:entire" (by decide) rfl rfl).1 rfl).2.2 (.num 4)
  · exact ((C3_set_event_reconciliation c3NullCfg _ [] 0 (.num 3)
      "nusm:s:entire" (by decide) rfl rfl).1 rfl).1 rfl
  · have h := (C3_set_event_reconciliation c3SliceCfg _ [] 0
      (.obj [("a", .num 5), ("x", .num 7)]) "nusm:s:slice:a"
      (by decide) rfl rfl).2 "a" c3Slice (.num 9) rfl rfl rfl rfl
    rw [h]
    rfl

/-- C5: an exception while reading, validating, or merging one unit is
caught per-unit.  For the slice strategy, if the unit bad in the middle of
the configured list fails, its status becomes error, the error goes to the
sink, the running state passes over it unchanged (the initial value is
kept for that unit), and the remaining units are folded exactly as they
would have been; for the entire strategy a failing try yields status
error, the initial value, and the sinked error; in both cases readiness
still resolves successfully whenever applying the resulting state
succeeds. -/
theorem C5_per_unit_error_containment
    (cfg : EngineConfig) (a : Adapter) (e : String) :
    (∀ (pre post : List Slice) (bad : Slice),
      cfg.slices = pre ++ bad :: post →
      shouldDiscardPersisted cfg.hydrateConfig = .ok false →
      sliceTry cfg a
        (List.foldl (stepSlice cfg a)
          ⟨cfg.initialState, initialStatuses cfg, []⟩ pre).state bad =
        .error e →
      hydrateSlices cfg a =
        .ok (List.foldl (stepSlice cfg a)
          ⟨(List.foldl (stepSlice cfg a)
              ⟨cfg.initialState, initialStatuses cfg, []⟩ pre).state,
            upsert (List.foldl (stepSlice cfg a)
              ⟨cfg.initialState, initialStatuses cfg, []⟩ pre).statuses
              bad.key .error,
            (List.foldl (stepSlice cfg a)
              ⟨cfg.initialState, initialStatuses cfg, []⟩ pre).errors ++ [e]⟩
          post)) ∧
    (shouldDiscardPersisted cfg.hydrateConfig = .ok false →
      hydrateEntireTry cfg a = .error e →
      hydrateEntire cfg a = .ok ⟨cfg.initialState, .error, [e]⟩) ∧
    (∀ (applyB : Val → Option String) (u : SlicesAcc),
      cfg.adapter = some a → hydratedAcc cfg a = .ok u →
      applyB u.state = none →
      (runHydrate cfg applyB).ready = .ok () ∧
      (runHydrate cfg applyB).isReady = true) := by
  refine ⟨?_, ?_, ?_⟩
  · intro pre post bad hsl hdisc hfail
    simp only [hydrateSlices, hdisc]
    rw [hsl, List.foldl_append, List.foldl_cons]
    congr 2
    simp [stepSlice, hfail]
  · intro hdisc htf
    simp [hydrateEntire, hdisc, htf]
  · intro applyB u ha hacc happly
    simp [runHydrate, ha, hacc, happly]

/-- C5 witness: a middle slice whose backend read throws ends with status
error and the sinked error while its neighbors hydrate and the state
survives unchanged; an entire-strategy read failure keeps the initial
value with status error; readiness resolves successfully in both stores. -/
theorem C5_per_unit_error_containment_witness :
    hydrateSlices c5Cfg c5Adapter =
      .ok ⟨.num 1, [("a", .hydrated), ("b", .error), ("c", .hydrated)],
        ["boom"]⟩ ∧
    hydrateEntire c5ECfg c5EAdapter = .ok ⟨.num 1, .error, ["boom"]⟩ ∧
    (runHydrate c5Cfg (fun _ => none)).ready = .ok () ∧
    (runHydrate c5ECfg (fun _ => none)).ready = .ok () := by
  refine ⟨?_, ?_, ?_, ?_⟩
  · have h := (C5_per_unit_error_containment c5Cfg c5Adapter "boom").1
      [c5SliceA] [c5SliceC] c5SliceB rfl rfl rfl
    rw [h]
    rfl
  · exact (C5_per_unit_error_containment c5ECfg c5EAdapter "boom").2.1 rfl rfl
  · exact ((C5_per_unit_error_containment c5Cfg c5Adapter "boom").2.2
      (fun _ => none)
      ⟨.num 1, [("a", .hydrated), ("b", .error), ("c", .hydrated)], ["boom"]⟩
      rfl rfl rfl).1
  · exact ((C5_per_unit_error_containment c5ECfg c5EAdapter "boom").2.2
      (fun _ => none) ⟨.num 1, [("entire", .error)], ["boom"]⟩
      rfl rfl rfl).1

/-- C6 counterexample: a store whose discardPersisted predicate throws
rejects the Readiness Signal even though the container application never
throws (the apply behavior here succeeds on every value): the predicate
runs at the top of hydrateEntire and hydrateSlices, outside the per-unit
try blocks, so its exception escapes to hydrate's catch — a second
failing path besides the apply error the claim calls the only one. -/
theorem C6_counterexample :
    (runHydrate c6PredCfg (fun _ => none)).ready = .error "discard-boom" ∧
    (runHydrate c6PredCfg (fun _ => none)).isReady = false ∧
    (runHydrate c6PredCfg (fun _ => none)).errors = ["discard-boom"] := by
  exact ⟨rfl, rfl, rfl⟩

/-- C6 (amended): if applying the hydrated state throws, that exception is
reported to the sink and the Readiness Signal rejects with it; it is the
only failing path once the strategy hydration has returned normally —
throwing validators, merges, reducers and backend reads are all caught
per-unit, so with a normal hydration result readiness resolves exactly
when the application succeeds.  It is not, however, the only failing path
of the engine: an exception escaping the strategy hydration itself (a
throwing discardPersisted predicate, whose call sits outside the per-unit
try blocks) also reaches hydrate's catch, is reported to the sink, and
rejects readiness without any apply error. -/
theorem C6_apply_error_fatal_paths
    (cfg : EngineConfig) (a : Adapter) (applyB : Val → Option String)
    (ha : cfg.adapter = some a) :
    (∀ (u : SlicesAcc) (e : String), hydratedAcc cfg a = .ok u →
      applyB u.state = some e →
      (runHydrate cfg applyB).ready = .error e ∧
      (runHydrate cfg applyB).isReady = false ∧
      (runHydrate cfg applyB).overall = .error ∧
      (runHydrate cfg applyB).errors = u.errors ++ [e]) ∧
    (∀ u : SlicesAcc, hydratedAcc cfg a = .ok u →
      applyB u.state = none →
      (runHydrate cfg applyB).ready = .ok () ∧
      (runHydrate cfg applyB).isReady = true) ∧
    (∀ e : String, hydratedAcc cfg a = .error e →
      (runHydrate cfg applyB).ready = .error e ∧
      (runHydrate cfg applyB).isReady = false ∧
      (runHydrate cfg applyB).overall = .error ∧
      (runHydrate cfg applyB).errors = [e]) := by
  refine ⟨?_, ?_, ?_⟩
  · intro u e hacc he
    simp [runHydrate, ha, hacc, he]
  · intro u hacc he
    simp [runHydrate, ha, hacc, he]
  · intro e hacc
    simp [runHydrate, ha, hacc]

/-- C6 witness: with a concrete store whose apply throws boom, readiness
rejects with boom, the flag stays down and the error reaches the sink;
with a succeeding apply readiness resolves; and the store with a throwing
discard predicate rejects readiness through the second path. -/
theorem C6_apply_error_fatal_paths_witness :
    (runHydrate c6Cfg (fun _ => some "boom")).ready = .error "boom" ∧
    (runHydrate c6Cfg (fun _ => some "boom")).isReady = false ∧
    (runHydrate c6Cfg (fun _ => some "boom")).errors = ["boom"] ∧
    (runHydrate c6Cfg (fun _ => none)).ready = .ok () ∧
    (runHydrate c6PredCfg (fun _ => none)).ready =
      .error "discard-boom" := by
  have h := (C6_apply_error_fatal_paths c6Cfg
    ⟨"memory", fun _ => .ok none, none⟩ (fun _ => some "boom") rfl).1
    ⟨.num 1, [("entire", .hydrated)], []⟩ "boom" rfl rfl
  have h₂ := ((C6_apply_error_fatal_paths c6Cfg
    ⟨"memory", fun _ => .ok none, none⟩ (fun _ => none) rfl).2.1
    ⟨.num 1, [("entire", .hydrated)], []⟩ rfl rfl).1
  have h₃ := ((C6_apply_error_fatal_paths c6PredCfg
    ⟨"memory", fun _ => .ok none, none⟩ (fun _ => none) rfl).2.2
    "discard-boom" rfl).1
  exact ⟨h.1, h.2.1, h.2.2.2, h₂, h₃⟩

/-- C8: a state assignment through applyState (the self-originated
application procedure) never changes the Pending Write Queue and never
triggers a flush, under every strategy and whatever the previous flag
value; while an ordinary non-suppressed assignment under the entire
strategy enqueues the current state for the entire unit's key and triggers
exactly one flush. -/
theorem C8_self_originated_never_enqueued
    (cfg : EngineConfig) (next : Val) (c : Container) :
    ((applyState cfg next c).sched.queued = c.sched.queued ∧
      (applyState cfg next c).sched.flushSignals = c.sched.flushSignals ∧
      (applyState cfg next c).state = next ∧
      (applyState cfg next c).sched.suppressPersist = false) ∧
    (∀ a : Adapter, cfg.adapter = some a →
      c.sched.suppressPersist = false → cfg.strategy = .entire →
      (setStateC cfg next c).sched.queued =
        upsert c.sched.queued (engineResolveKey cfg .entire) next ∧
      (setStateC cfg next c).sched.flushSignals =
        c.sched.flushSignals + 1 ∧
      (setStateC cfg next c).state = next) := by
  constructor
  · cases hca : cfg.adapter with
    | none => simp [applyState, setStateC, storeSubscriber, hca]
    | some a => simp [applyState, setStateC, storeSubscriber, hca]
  · intro a ha hsupp hstrat
    simp [setStateC, storeSubscriber, ha, hsupp, hstrat, enqueuePersist]

/-- C8 witness: on a concrete container, applyState leaves the queue and
flush count untouched while a plain setState enqueues under the entire
unit's key and triggers one flush. -/
theorem C8_self_originated_never_enqueued_witness :
    (applyState c8Cfg (.num 5) c8Container).sched.queued = [] ∧
    (applyState c8Cfg (.num 5) c8Container).sched.flushSignals = 0 ∧
    (applyState c8Cfg (.num 5) c8Container).state = .num 5 ∧
    (setStateC c8Cfg (.num 5) c8Container).sched.queued =
      [("nusm:s:entire", .num 5)] ∧
    (setStateC c8Cfg (.num 5) c8Container).sched.flushSignals = 1 := by
  have h := C8_self_originated_never_enqueued c8Cfg (.num 5) c8Container
  have h₂ := h.2 ⟨"memory", fun _ => .ok none, none⟩ rfl rfl rfl
  exact ⟨h.1.1, h.1.2.1, h.1.2.2.1, h₂.1, h₂.2.1⟩

/-- C9: with an adapter configured the container is initialized to
undefined, not the initial state, and stays so across every pre-readiness
adapter event (the listener only appends to the buffer); the hydration run
is what assigns the hydrated state; without an adapter the container holds
the initial state from construction. -/
theorem C9_container_starts_undefined
    (cfg : EngineConfig) :
    (∀ a : Adapter, cfg.adapter = some a →
      initialContainerState cfg = Val.undef) ∧
    (cfg.adapter = none →
      initialContainerState cfg = cfg.initialState) ∧
    (∀ (buffer : List AdapterEvent) (e : AdapterEvent),
      onAdapterEvent false buffer e = (buffer ++ [e], false)) ∧
    (∀ (a : Adapter) (applyB : Val → Option String) (u : SlicesAcc),
      cfg.adapter = some a → hydratedAcc cfg a = .ok u →
      applyB u.state = none →
      (runHydrate cfg applyB).containerState = u.state) := by
  refine ⟨?_, ?_, ?_, ?_⟩
  · intro a ha
    simp [initialContainerState, ha]
  · intro ha
    simp [initialContainerState, ha]
  · intro buffer e
    simp [onAdapterEvent]
  · intro a applyB u ha hacc happ
    simp [runHydrate, ha, hacc, happ]

/-- C9 witness: the concrete adapter-backed store starts undefined and a
pre-readiness event only lands in the buffer, while the adapterless store
starts at the initial state; hydration assigns the hydrated value. -/
theorem C9_container_starts_undefined_witness :
    initialContainerState c9Cfg = Val.undef ∧
    initialContainerState c9NoCfg = .num 1 ∧
    onAdapterEvent false [] ⟨.set, some "k"⟩ = ([⟨.set, some "k"⟩], false) ∧
    (runHydrate c9Cfg (fun _ => none)).containerState = .num 1 := by
  have h := C9_container_starts_undefined c9Cfg
  have h' := C9_container_starts_undefined c9NoCfg
  refine ⟨h.1 ⟨"memory", fun _ => .ok none, none⟩ rfl, h'.2.1 rfl,
    h.2.2.1 [] ⟨.set, some "k"⟩, ?_⟩
  have h₄ := h.2.2.2 ⟨"memory", fun _ => .ok none, none⟩ (fun _ => none)
    ⟨.num 1, [("entire", .hydrated)], []⟩ rfl rfl rfl
  rw [h₄]

/-- C10 counterexample: in this concrete store hydration produces the
string w, applying it throws, so the Readiness Signal settles with
failure; yet the buffered clear event is still processed by the replay
step — hydrate's catch swallows the error after rejecting readiness, so
the hydrate() promise resolves and the replay continuation runs — and the
event is applied to the in-memory state, which ends at the initial 1. -/
theorem C10_counterexample :
    runLifecycle c10Cfg c10Apply [] 0 [⟨.clear, none⟩] =
      ⟨.num 1, false, .error "boom", [⟨.clear, none⟩], [], ["boom"]⟩ ∧
    (runLifecycle c10Cfg c10Apply [] 0 [⟨.clear, none⟩]).replayed ≠ [] := by
  refine ⟨rfl, ?_⟩
  intro h
  rw [show runLifecycle c10Cfg c10Apply [] 0 [⟨.clear, none⟩] =
      ⟨.num 1, false, .error "boom", [⟨.clear, none⟩], [], ["boom"]⟩ from rfl]
    at h
  exact List.cons_ne_nil _ _ h

/-- The replay loop always processes the first buffered event, whatever
the handler and the container assignment do. -/
theorem replayAll_cons_ne_nil (cfg : EngineConfig)
    (applyB : Val → Option String) (rw : List (String × Nat)) (now : Nat)
    (st : Val) (e : AdapterEvent) (rest : List AdapterEvent) :
    (replayAll cfg applyB rw now st (e :: rest)).2 ≠ [] := by
  rw [replayAll]
  cases h : handleAdapterEvent cfg rw now st e with
  | error err => simp
  | ok o =>
    cases o with
    | none => simp
    | some v =>
      cases happ : applyB v with
      | none => simp [happ]
      | some err => simp [happ]

/-- C10 (amended): when the Readiness Signal settles with failure the
internal readiness flag stays false, so every event arriving afterwards is
only appended to the buffer and the listener never hands it to the
handler; but events buffered before the failure are still drained by the
replay step, which runs whether readiness succeeded or failed because
hydrate's catch swallows the error after rejecting. -/
theorem C10_failed_readiness
    (cfg : EngineConfig) (applyB : Val → Option String)
    (rw : List (String × Nat)) (now : Nat) (buffered : List AdapterEvent)
    (e : String)
    (hfail : (runHydrate cfg applyB).ready = .error e) :
    (runHydrate cfg applyB).isReady = false ∧
    (∀ (buf : List AdapterEvent) (ev : AdapterEvent),
      onAdapterEvent false buf ev = (buf ++ [ev], false)) ∧
    (buffered ≠ [] →
      (runLifecycle cfg applyB rw now buffered).replayed ≠ []) ∧
    (runLifecycle cfg applyB rw now buffered).ready = .error e := by
  have hready : (runHydrate cfg applyB).isReady = false := by
    cases hca : cfg.adapter with
    | none =>
      rw [show runHydrate cfg applyB =
        ⟨cfg.initialState, true, .ok (), .not_configured, [], []⟩ from by
          simp [runHydrate, hca]] at hfail
      exact absurd hfail (by simp)
    | some a =>
      cases hacc : hydratedAcc cfg a with
      | error err => simp [runHydrate, hca, hacc]
      | ok u =>
        cases happ : applyB u.state with
        | none =>
          rw [show (runHydrate cfg applyB).ready = .ok () from by
            simp [runHydrate, hca, hacc, happ]] at hfail
          exact absurd hfail (by simp)
        | some err => simp [runHydrate, hca, hacc, happ]
  refine ⟨hready, fun buf ev => rfl, ?_, ?_⟩
  · intro hne
    cases buffered with
    | nil => exact absurd rfl hne
    | cons hd tl =>
      have hcons := replayAll_cons_ne_nil cfg applyB rw now
        (runHydrate cfg applyB).containerState hd tl
      rcases hrep : replayAll cfg applyB rw now
          (runHydrate cfg applyB).containerState (hd :: tl) with ⟨st, ps⟩
      rw [hrep] at hcons
      simp only [runLifecycle, hrep]
      exact hcons
  · rcases hrep : replayAll cfg applyB rw now
        (runHydrate cfg applyB).containerState buffered with ⟨st, ps⟩
    simp only [runLifecycle, hrep]
    exact hfail

/-- C10 witness: the amended theorem at the concrete failing store — the
flag stays down, a post-failure event is only buffered, a nonempty buffer
is nevertheless drained by the replay step, and the lifecycle's readiness
outcome is the rejection. -/
theorem C10_failed_readiness_witness :
    (runHydrate c10Cfg c10Apply).isReady = false ∧
    onAdapterEvent false [] ⟨.set, some "nusm:s:entire"⟩ =
      ([⟨.set, some "nusm:s:entire"⟩], false) ∧
    (runLifecycle c10Cfg c10Apply [] 0
      [⟨.remove, some "nusm:s:entire"⟩]).replayed ≠ [] ∧
    (runLifecycle c10Cfg c10Apply [] 0
      [⟨.remove, some "nusm:s:entire"⟩]).ready = .error "boom" := by
  have h := C10_failed_readiness c10Cfg c10Apply [] 0
    [⟨.remove, some "nusm:s:entire"⟩] "boom" rfl
  exact ⟨h.1, h.2.1 [] ⟨.set, some "nusm:s:entire"⟩,
    h.2.2.1 (List.cons_ne_nil _ _), h.2.2.2⟩

end Nusm
